import Mathlib

/-!
Contact relay service (`server.js`): the `POST /send-contact` handler

A shallow embedding of the request handler of `src/server.js` and the
properties of its validation, rendering and retry loop.

Modelling conventions.
* A request body is a parsed JSON object whose six fields are each either
  absent (`undefined`, here `none`) or a string (`some s`), as in the data
  model of the specification.
* A JavaScript string is a Lean `String`; the regular expression of the
  handler has no `u` flag and only uses negated classes, which treat both
  halves of a surrogate pair like any other non-space character, so matching
  over code points agrees with matching over UTF-16 code units.
* `transporter.sendMail` is an external service: the outcome of the `n`-th
  call (counted from `0`) of one request is given by a function
  `Nat → Outcome`.
* The handler returns the response it sends together with the trace of its
  external effects (`sendMail` calls and timer waits). Console logging is
  not part of the trace.
-/

namespace ContactRelay

/-! ## Regular expressions (the fragment used by `emailRegex`) -/

/-- The ECMAScript character class `\s`: the `WhiteSpace` and
`LineTerminator` code points. -/
def isJsWhitespace (c : Char) : Bool :=
  let n := c.toNat
  n == 0x09 || n == 0x0A || n == 0x0B || n == 0x0C || n == 0x0D || n == 0x20 ||
  n == 0xA0 || n == 0x1680 || (0x2000 ≤ n && n ≤ 0x200A) || n == 0x2028 ||
  n == 0x2029 || n == 0x202F || n == 0x205F || n == 0x3000 || n == 0xFEFF

/-- Regular expressions over characters, with character classes given by a
Boolean test. -/
inductive Regex where
  | never : Regex
  | empty : Regex
  | cls (p : Char → Bool) : Regex
  | seq (r s : Regex) : Regex
  | alt (r s : Regex) : Regex
  | star (r : Regex) : Regex

namespace Regex

/-- The regex `r+`. -/
def plus (r : Regex) : Regex := seq r (star r)

/-- The regex matching exactly the character `c`. -/
def chr (c : Char) : Regex := cls (fun x => x == c)

/-- Whether `r` matches the empty string. -/
def nullable : Regex → Bool
  | never => false
  | empty => true
  | cls _ => false
  | seq r s => nullable r && nullable s
  | alt r s => nullable r || nullable s
  | star _ => true

/-- Brzozowski derivative of `r` by the character `c`. -/
def deriv : Regex → Char → Regex
  | never, _ => never
  | empty, _ => never
  | cls p, c => if p c then empty else never
  | seq r s, c =>
      if nullable r then alt (seq (deriv r c) s) (deriv s c) else seq (deriv r c) s
  | alt r s, c => alt (deriv r c) (deriv s c)
  | star r, c => seq (deriv r c) (star r)

/-- Whether `r` matches the whole of the character list. -/
def rmatch : Regex → List Char → Bool
  | r, [] => nullable r
  | r, c :: cs => rmatch (deriv r c) cs

/-- The language of a regular expression. -/
def lang : Regex → List Char → Prop
  | never, _ => False
  | empty, s => s = []
  | cls p, s => ∃ c, s = [c] ∧ p c = true
  | seq r t, s => ∃ a b, s = a ++ b ∧ lang r a ∧ lang t b
  | alt r t, s => lang r s ∨ lang t s
  | star r, s => ∃ L : List (List Char), s = L.flatten ∧ ∀ x ∈ L, x ≠ [] ∧ lang r x

end Regex

/-- The character class `[^\s@]`. -/
def notSpaceAt (c : Char) : Bool := !(isJsWhitespace c || c == '@')

/-- The source's `emailRegex`, `/^[^\s@]+@[^\s@]+\.[^\s@]+$/`. -/
def emailRegex : Regex :=
  .seq (.plus (.cls notSpaceAt))
    (.seq (.chr '@')
      (.seq (.plus (.cls notSpaceAt))
        (.seq (.chr '.') (.plus (.cls notSpaceAt)))))

/-- The call `emailRegex.test(email)`: both anchors are present and there are no flags, so
the whole string has to match. -/
def emailRegexTest (email : String) : Bool := emailRegex.rmatch email.toList

/-! ## Data model -/

/-- The six fields the handler destructures from `req.body`; `none` is an
absent field (`undefined`). -/
structure RequestBody where
  email : Option String
  clientName : Option String
  projectTitle : Option String
  description : Option String
  timeline : Option String
  phoneNumber : Option String

/-- JavaScript truthiness of a field value: `undefined` and the empty string
are falsy, every other string is truthy. -/
def truthy : Option String → Bool
  | none => false
  | some s => s != ""

/-- The string conversion applied by a template literal and by
`RegExp.prototype.test` to its argument. -/
def toStr : Option String → String
  | none => "undefined"
  | some s => s

/-- The expression `a || b` with a string literal `b`. -/
def jsOr (a : Option String) (b : String) : Option String :=
  if truthy a then a else some b

/-- What `res.status(..).json(..)` sends: the status code and the members of
the JSON object, in order. -/
structure Response where
  status : Nat
  body : List (String × String)
  deriving DecidableEq, Repr

/-- The argument of `transporter.sendMail`; `sender` is its `from` member and
`recipient` its `to` member. -/
structure Mail where
  sender : String
  recipient : Option String
  replyTo : String
  subject : String
  html : String
  deriving DecidableEq, Repr

/-- The error a rejected `sendMail` call is rejected with. -/
structure SendError where
  message : String
  deriving DecidableEq, Repr

/-- The outcome of one `sendMail` call. -/
inductive Outcome where
  | resolved : Outcome
  | rejected (err : SendError) : Outcome
  deriving DecidableEq, Repr

/-- The external effects of the handler. -/
inductive Event where
  | sendMail (mail : Mail) : Event
  | wait (ms : Nat) : Event
  deriving DecidableEq, Repr

/-- The result of handling one request: the response sent, if any, and the
external effects in the order they happened. -/
structure Handled where
  response : Option Response
  trace : List Event
  deriving DecidableEq, Repr

/-! ## The HTML template -/

/-- The template literal of `emailContent` up to the `clientName` placeholder. -/
def tplHead : String :=
  "\n" ++
  "      <!DOCTYPE html>\n" ++
  "      <html>\n" ++
  "      <head>\n" ++
  "        <style>\n" ++
  "          body \x7b \n" ++
  "            font-family: \x27Segoe UI\x27, Tahoma, Geneva, Verdana, sans-serif; \n" ++
  "            line-height: 1.6; \n" ++
  "            color: #333; \n" ++
  "            max-width: 600px; \n" ++
  "            margin: 0 auto; \n" ++
  "            padding: 20px;\n" ++
  "          \x7d\n" ++
  "          .header \x7b \n" ++
  "            background: linear-gradient(135deg, #667eea 0%, #764ba2 100%); \n" ++
  "            color: white; \n" ++
  "            padding: 30px; \n" ++
  "            border-radius: 10px 10px 0 0; \n" ++
  "            text-align: center;\n" ++
  "          \x7d\n" ++
  "          .content \x7b \n" ++
  "            background: #f8f9fa; \n" ++
  "            padding: 30px; \n" ++
  "            border-radius: 0 0 10px 10px;\n" ++
  "          \x7d\n" ++
  "          .info-box \x7b \n" ++
  "            background: white; \n" ++
  "            padding: 20px; \n" ++
  "            margin: 15px 0; \n" ++
  "            border-radius: 8px; \n" ++
  "            border-left: 4px solid #667eea;\n" ++
  "            box-shadow: 0 2px 4px rgba(0,0,0,0.1);\n" ++
  "          \x7d\n" ++
  "          .label \x7b \n" ++
  "            font-weight: bold; \n" ++
  "            color: #495057; \n" ++
  "            margin-bottom: 5px;\n" ++
  "          \x7d\n" ++
  "          .value \x7b \n" ++
  "            color: #212529; \n" ++
  "            margin-bottom: 15px;\n" ++
  "          \x7d\n" ++
  "          .footer \x7b\n" ++
  "            text-align: center;\n" ++
  "            margin-top: 30px;\n" ++
  "            padding: 20px;\n" ++
  "            background: #e9ecef;\n" ++
  "            border-radius: 8px;\n" ++
  "            font-size: 14px;\n" ++
  "            color: #6c757d;\n" ++
  "          \x7d\n" ++
  "        </style>\n" ++
  "      </head>\n" ++
  "      <body>\n" ++
  "        <div class=\"header\">\n" ++
  "          <h1>🚀 New Project Inquiry</h1>\n" ++
  "          <p>You have received a new project inquiry from your website</p>\n" ++
  "        </div>\n" ++
  "        \n" ++
  "        <div class=\"content\">\n" ++
  "          <div class=\"info-box\">\n" ++
  "            <div class=\"label\">👤 Client Name:</div>\n" ++
  "            <div class=\"value\">"

/-- The template text between the `clientName` placeholder and the `email` placeholder. -/
def tplAfterClientName : String :=
  "</div>\n" ++
  "          </div>\n" ++
  "\n" ++
  "          <div class=\"info-box\">\n" ++
  "            <div class=\"label\">📧 Email Address:</div>\n" ++
  "            <div class=\"value\">"

/-- The template text between the `email` placeholder and the phone number placeholder. -/
def tplAfterEmail : String :=
  "</div>\n" ++
  "          </div>\n" ++
  "\n" ++
  "          <div class=\"info-box\">\n" ++
  "            <div class=\"label\">📱 Phone Number:</div>\n" ++
  "            <div class=\"value\">"

/-- The template text between the phone number placeholder and the `projectTitle` placeholder. -/
def tplAfterPhoneNumber : String :=
  "</div>\n" ++
  "          </div>\n" ++
  "\n" ++
  "          <div class=\"info-box\">\n" ++
  "            <div class=\"label\">📋 Project Title:</div>\n" ++
  "            <div class=\"value\">"

/-- The template text between the `projectTitle` placeholder and the timeline placeholder. -/
def tplAfterProjectTitle : String :=
  "</div>\n" ++
  "          </div>\n" ++
  "\n" ++
  "          <div class=\"info-box\">\n" ++
  "            <div class=\"label\">💰 Budget (INR):</div>\n" ++
  "            <div class=\"value\">"

/-- The template text between the timeline placeholder and the `description` placeholder. -/
def tplAfterTimeline : String :=
  "</div>\n" ++
  "          </div>\n" ++
  "\n" ++
  "          <div class=\"info-box\">\n" ++
  "            <div class=\"label\">📝 Project Description:</div>\n" ++
  "            <div class=\"value\" style=\"white-space: pre-line;\">"

/-- The template text after the `description` placeholder. -/
def tplAfterDescription : String :=
  "</div>\n" ++
  "          </div>\n" ++
  "\n" ++
  "          <div class=\"footer\">\n" ++
  "            <p><strong>TriadForge</strong> - Forging Digital Excellence</p>\n" ++
  "            <p>This inquiry was submitted through your website contact form.</p>\n" ++
  "          </div>\n" ++
  "        </div>\n" ++
  "      </body>\n" ++
  "      </html>\n" ++
  "    "

/-- The template literal `emailContent` of the handler. -/
def emailContent (body : RequestBody) : String :=
  tplHead ++ toStr body.clientName ++
  tplAfterClientName ++ toStr body.email ++
  tplAfterEmail ++ toStr (jsOr body.phoneNumber "Not provided") ++
  tplAfterPhoneNumber ++ toStr body.projectTitle ++
  tplAfterProjectTitle ++ toStr (jsOr body.timeline "Not specified") ++
  tplAfterTimeline ++ toStr body.description ++
  tplAfterDescription

/-- The object passed to `transporter.sendMail`; `EMAIL_USER` is
`process.env.EMAIL_USER`. -/
def mailOptions (EMAIL_USER : Option String) (body : RequestBody) : Mail where
  sender := "\"TriadForge Contact Form\" <" ++ toStr EMAIL_USER ++ ">"
  recipient := EMAIL_USER
  replyTo := "\"" ++ toStr body.clientName ++ "\" <" ++ toStr body.email ++ ">"
  subject := "New Project Inquiry: " ++ toStr body.projectTitle ++ " - " ++ toStr body.clientName
  html := emailContent body

/-! ## The handler -/

/-- The 400 response of the required-fields check. -/
def missingFieldsResponse : Response :=
  ⟨400, [("error", "Missing required fields"),
    ("details", "Email, client name, project title, and description are required")]⟩

/-- The 400 response of the email format check. -/
def invalidEmailResponse : Response :=
  ⟨400, [("error", "Invalid email format"),
    ("details", "Please provide a valid email address")]⟩

/-- The 200 response sent after a `sendMail` call resolved. -/
def successResponse : Response :=
  ⟨200, [("message", "Your message has been sent successfully! We will get back to you soon."),
    ("status", "success")]⟩

/-- The outer `catch (error)` block. When the thrown value is `undefined`,
reading `error.message` throws inside the block and no response is sent. -/
def catchResponse : Option SendError → Option Response
  | none => none
  | some error =>
      some ⟨500, [("error", "Failed to send message"),
        ("details", toStr (jsOr (some error.message) "An unexpected error occurred"))]⟩

/-- The loop `while (retries > 0) { try { await sendMail; return 200 } catch (err)
{ error = err; retries--; if (retries > 0) await wait(1000) } }`, by recursion on
`retries`. `calls` counts the `sendMail` calls made so far and `error` is the
variable `error`. The result is `.ok` of the response returned from inside the
loop, or `.error` of the value of `error` when the loop ends and `throw error`
runs, together with the effects. -/
def retryLoop (provider : Nat → Outcome) (mail : Mail) :
    Nat → Nat → Option SendError → Except (Option SendError) Response × List Event
  | 0, _, error => (.error error, [])
  | retries + 1, calls, _ =>
      match provider calls with
      | .resolved => (.ok successResponse, [.sendMail mail])
      | .rejected err =>
          let rest := retryLoop provider mail retries (calls + 1) (some err)
          (rest.1, .sendMail mail :: (if retries > 0 then .wait 1000 :: rest.2 else rest.2))

/-- The two validation checks of the handler: all four required fields are
truthy and the email passes `emailRegex.test`. -/
def validSubmission (body : RequestBody) : Bool :=
  !(!truthy body.email || !truthy body.clientName || !truthy body.projectTitle ||
      !truthy body.description) &&
    emailRegexTest (toStr body.email)

/-- The handler of `POST /send-contact`. -/
def sendContact (EMAIL_USER : Option String) (body : RequestBody)
    (provider : Nat → Outcome) : Handled :=
  if !truthy body.email || !truthy body.clientName || !truthy body.projectTitle ||
      !truthy body.description then
    ⟨some missingFieldsResponse, []⟩
  else if !emailRegexTest (toStr body.email) then
    ⟨some invalidEmailResponse, []⟩
  else
    match retryLoop provider (mailOptions EMAIL_USER body) 3 0 none with
    | (.ok response, trace) => ⟨some response, trace⟩
    | (.error error, trace) => ⟨catchResponse error, trace⟩

/-- The mails handed to `sendMail`, in order. -/
def sentMails : List Event → List Mail
  | [] => []
  | .sendMail mail :: rest => mail :: sentMails rest
  | .wait _ :: rest => sentMails rest

/-- The waits of a trace, in order. -/
def waits : List Event → List Nat
  | [] => []
  | .sendMail _ :: rest => waits rest
  | .wait ms :: rest => ms :: waits rest

/-! ## Vocabulary of the properties -/

/-- A field that is absent or the empty string. -/
def AbsentOrEmpty (v : Option String) : Prop := v = none ∨ v = some ""

/-- A non-empty run of characters that all pass the test `p`. -/
def Run (p : Char → Bool) (s : List Char) : Prop := s ≠ [] ∧ ∀ x ∈ s, p x = true

/-- The shape the source's `emailRegex` describes: a run of characters that are
neither whitespace nor `@`, then `@`, then such a run, then `.`, then such a
run. -/
def EmailShape (s : List Char) : Prop :=
  ∃ a b c, s = a ++ '@' :: (b ++ '.' :: c) ∧
    Run notSpaceAt a ∧ Run notSpaceAt b ∧ Run notSpaceAt c

/-- The shape as the specification words it: the final segment only has to be
free of whitespace. -/
def SpecEmailShape (s : List Char) : Prop :=
  ∃ a b c, s = a ++ '@' :: (b ++ '.' :: c) ∧
    Run notSpaceAt a ∧ Run notSpaceAt b ∧ Run (fun x => !isJsWhitespace x) c

/-- The string `s` contains `t` as a contiguous substring. -/
def Contains (s t : String) : Prop := t.toList <:+: s.toList

/-- The "Phone Number" label element of the template followed by its value
element holding `value`. -/
def phoneNumberBox (value : String) : String :=
  "<div class=\"label\">📱 Phone Number:</div>\n            <div class=\"value\">" ++ value ++
    "</div>"

/-- The "Budget (INR)" label element of the template followed by its value
element holding `value`. -/
def budgetBox (value : String) : String :=
  "<div class=\"label\">💰 Budget (INR):</div>\n            <div class=\"value\">" ++ value ++
    "</div>"

/-- An element styled `white-space: pre-line` holding `value`. -/
def preLineElement (value : String) : String :=
  "<div class=\"value\" style=\"white-space: pre-line;\">" ++ value ++ "</div>"

/-- None of the listed strings holds the character `c`. -/
def FreeOf (c : Char) (values : List String) : Prop := ∀ v ∈ values, c ∉ v.toList

/-- The body of the specification's example scenario. -/
def exampleBody : RequestBody :=
  ⟨some "a@b.com", some "Ana", some "Website", some "Need a site", none, none⟩

/-- A provider that answers its calls from a script and resolves every call
after the script has ended. -/
def scripted (script : List Outcome) : Nat → Outcome :=
  fun n => script.getD n .resolved

/-! ## Regex lemmas -/

namespace Regex

theorem nullable_iff (r : Regex) : nullable r = true ↔ lang r [] := by
  induction r with
  | never => simp [nullable, lang]
  | empty => simp [nullable, lang]
  | cls p => simp [nullable, lang]
  | seq r s ihr ihs =>
      simp only [nullable, lang, Bool.and_eq_true, ihr, ihs]
      constructor
      · rintro ⟨h1, h2⟩
        exact ⟨[], [], rfl, h1, h2⟩
      · rintro ⟨a, b, hab, h1, h2⟩
        have h := List.append_eq_nil.mp hab.symm
        rw [h.1] at h1
        rw [h.2] at h2
        exact ⟨h1, h2⟩
  | alt r s ihr ihs => simp [nullable, lang, ihr, ihs]
  | star r _ =>
      simp only [nullable, lang, true_iff]
      exact ⟨[], rfl, by simp⟩

theorem deriv_iff (r : Regex) (c : Char) (s : List Char) :
    lang (deriv r c) s ↔ lang r (c :: s) := by
  induction r generalizing s with
  | never => simp [deriv, lang]
  | empty => simp [deriv, lang]
  | cls p =>
      by_cases hp : p c = true
      · simp only [deriv, hp, if_true, lang]
        constructor
        · rintro rfl
          exact ⟨c, rfl, hp⟩
        · rintro ⟨d, hd, _⟩
          simp at hd
          exact hd.2
      · simp only [deriv, hp, lang]
        simp only [Bool.false_eq_true, if_false, lang, false_iff]
        rintro ⟨d, hd, hpd⟩
        simp at hd
        rw [← hd.1] at hpd
        exact hp hpd
  | seq r t ihr iht =>
      have key : lang (seq (deriv r c) t) s ∨ (lang r [] ∧ lang (deriv t c) s) ↔
          lang (seq r t) (c :: s) := by
        simp only [lang]
        constructor
        · rintro (⟨a, b, hab, h1, h2⟩ | ⟨h1, h2⟩)
          · exact ⟨c :: a, b, by simp [hab], (ihr a).mp h1, h2⟩
          · exact ⟨[], c :: s, rfl, h1, (iht s).mp h2⟩
        · rintro ⟨a, b, hab, h1, h2⟩
          cases a with
          | nil =>
              simp at hab
              subst hab
              exact Or.inr ⟨h1, (iht s).mpr h2⟩
          | cons d a =>
              simp at hab
              obtain ⟨rfl, rfl⟩ := hab
              exact Or.inl ⟨a, b, rfl, (ihr a).mpr h1, h2⟩
      rw [← key]
      by_cases hn : nullable r = true
      · simp only [deriv, hn, if_true]
        simp only [lang, (nullable_iff r).symm, hn, true_and]
      · have hn2 : ¬ lang r [] := fun h => hn ((nullable_iff r).mpr h)
        simp only [deriv, hn, lang]
        simp [hn2, lang]
  | alt r t ihr iht => simp [deriv, lang, ihr, iht]
  | star r ih =>
      simp only [deriv, lang]
      constructor
      · rintro ⟨a, b, hab, h1, L, hL, hall⟩
        refine ⟨(c :: a) :: L, by simp [hab, hL], ?_⟩
        intro x hx
        rcases List.mem_cons.mp hx with rfl | hx
        · exact ⟨by simp, (ih a).mp h1⟩
        · exact hall x hx
      · rintro ⟨L, hL, hall⟩
        cases L with
        | nil => simp at hL
        | cons x L =>
            have hx := hall x (List.mem_cons_self _ _)
            cases x with
            | nil => exact absurd rfl hx.1
            | cons d a =>
                simp at hL
                obtain ⟨rfl, rfl⟩ := hL
                exact ⟨a, L.flatten, rfl, (ih a).mpr hx.2, L, rfl,
                  fun y hy => hall y (List.mem_cons_of_mem _ hy)⟩

theorem rmatch_iff (r : Regex) (s : List Char) : rmatch r s = true ↔ lang r s := by
  induction s generalizing r with
  | nil => simpa [rmatch] using nullable_iff r
  | cons c s ih => simp only [rmatch, ih, deriv_iff]

end Regex

/-! ## Lemmas on the email pattern -/

theorem truthy_eq_false_iff (v : Option String) : truthy v = false ↔ AbsentOrEmpty v := by
  cases v with
  | none => simp [truthy, AbsentOrEmpty]
  | some s => simp [truthy, AbsentOrEmpty]

theorem Regex.lang_star_cls (p : Char → Bool) (s : List Char) :
    Regex.lang (.star (.cls p)) s ↔ ∀ x ∈ s, p x = true := by
  simp only [Regex.lang]
  constructor
  · rintro ⟨L, rfl, hall⟩ x hx
    obtain ⟨l, hl, hxl⟩ := List.mem_flatten.mp hx
    obtain ⟨_, c, rfl, hc⟩ := hall l hl
    simp at hxl
    rw [hxl]
    exact hc
  · intro h
    induction s with
    | nil => exact ⟨[], rfl, by simp⟩
    | cons c s ih =>
        obtain ⟨L, hL, hall⟩ := ih (fun x hx => h x (List.mem_cons_of_mem _ hx))
        refine ⟨[c] :: L, by simp [hL], ?_⟩
        intro x hx
        rcases List.mem_cons.mp hx with rfl | hx
        · exact ⟨by simp, c, rfl, h c (List.mem_cons_self _ _)⟩
        · exact hall x hx

theorem Regex.lang_plus_cls (p : Char → Bool) (s : List Char) :
    Regex.lang (.plus (.cls p)) s ↔ Run p s := by
  simp only [Regex.plus]
  constructor
  · intro h
    obtain ⟨a, b, rfl, ⟨c, rfl, hc⟩, hb⟩ := h
    rw [Regex.lang_star_cls] at hb
    refine ⟨by simp, ?_⟩
    intro x hx
    rcases List.mem_cons.mp hx with rfl | hx
    · exact hc
    · exact hb x hx
  · rintro ⟨hne, hall⟩
    cases s with
    | nil => exact absurd rfl hne
    | cons c s =>
        exact ⟨[c], s, rfl, ⟨c, rfl, hall c (List.mem_cons_self _ _)⟩,
          (Regex.lang_star_cls p s).mpr (fun x hx => hall x (List.mem_cons_of_mem _ hx))⟩

theorem Regex.lang_chr (c : Char) (s : List Char) : Regex.lang (.chr c) s ↔ s = [c] := by
  simp [Regex.chr, Regex.lang]

theorem Regex.lang_chr_seq (c : Char) (r : Regex) (s : List Char) :
    Regex.lang (.seq (.chr c) r) s ↔ ∃ t, s = c :: t ∧ Regex.lang r t := by
  constructor
  · rintro ⟨a, b, rfl, ha, hb⟩
    rw [Regex.lang_chr] at ha
    subst ha
    exact ⟨b, rfl, hb⟩
  · rintro ⟨t, rfl, ht⟩
    exact ⟨[c], t, rfl, (Regex.lang_chr c [c]).mpr rfl, ht⟩

/-- The source's regular expression accepts exactly the strings of `EmailShape`. -/
theorem emailRegexTest_iff (email : String) :
    emailRegexTest email = true ↔ EmailShape email.toList := by
  unfold emailRegexTest emailRegex EmailShape
  rw [Regex.rmatch_iff]
  constructor
  · rintro ⟨a, r1, h1, ha, hr1⟩
    obtain ⟨r2, rfl, b, r3, rfl, hb, hr3⟩ := (Regex.lang_chr_seq _ _ _).mp hr1
    obtain ⟨c, rfl, hc⟩ := (Regex.lang_chr_seq _ _ _).mp hr3
    exact ⟨a, b, c, h1, (Regex.lang_plus_cls _ _).mp ha, (Regex.lang_plus_cls _ _).mp hb,
      (Regex.lang_plus_cls _ _).mp hc⟩
  · rintro ⟨a, b, c, h1, ha, hb, hc⟩
    refine ⟨a, _, h1, (Regex.lang_plus_cls _ _).mpr ha, ?_⟩
    refine (Regex.lang_chr_seq _ _ _).mpr ⟨_, rfl, b, _, rfl, (Regex.lang_plus_cls _ _).mpr hb, ?_⟩
    exact (Regex.lang_chr_seq _ _ _).mpr ⟨c, rfl, (Regex.lang_plus_cls _ _).mpr hc⟩

theorem Run.not_mem_at {s : List Char} (h : Run notSpaceAt s) : '@' ∉ s := by
  intro hmem
  have := h.2 _ hmem
  simp [notSpaceAt] at this

/-- In a string of `EmailShape` every `@` is followed, somewhere, by a `.`. -/
theorem EmailShape.dot_after_at {s : List Char} (h : EmailShape s) (a' b' : List Char)
    (hs : s = a' ++ '@' :: b') : '.' ∈ b' := by
  obtain ⟨a, b, c, rfl, ha, hb, hc⟩ := h
  have hna := ha.not_mem_at
  have hnb := hb.not_mem_at
  have hnc := hc.not_mem_at
  rcases List.append_eq_append_iff.mp hs with ⟨m, rfl, hm⟩ | ⟨m, rfl, hm⟩
  · cases m with
    | nil =>
        simp at hm
        subst hm
        simp
    | cons y m =>
        simp at hm
        obtain ⟨rfl, hm⟩ := hm
        have : '@' ∈ b ++ '.' :: c := by rw [hm]; simp
        rcases List.mem_append.mp this with h1 | h1
        · exact absurd h1 hnb
        · rcases List.mem_cons.mp h1 with h2 | h2
          · exact absurd h2 (by decide)
          · exact absurd h2 hnc
  · cases m with
    | nil =>
        simp at hm
        subst hm
        simp
    | cons y m =>
        simp at hm
        obtain ⟨rfl, _⟩ := hm
        exact absurd (by simp) hna

theorem EmailShape.mem_at {s : List Char} (h : EmailShape s) : '@' ∈ s := by
  obtain ⟨a, b, c, rfl, _⟩ := h
  simp

/-! ## Lemmas on the handler -/

theorem validSubmission_iff (body : RequestBody) :
    validSubmission body = true ↔
      (truthy body.email = true ∧ truthy body.clientName = true ∧
        truthy body.projectTitle = true ∧ truthy body.description = true) ∧
      emailRegexTest (toStr body.email) = true := by
  simp [validSubmission, and_assoc]

/-- A submission that fails either check gets its 400 response and causes no effect. -/
theorem sendContact_missing (EMAIL_USER : Option String) (body : RequestBody)
    (provider : Nat → Outcome)
    (h : truthy body.email = false ∨ truthy body.clientName = false ∨
      truthy body.projectTitle = false ∨ truthy body.description = false) :
    sendContact EMAIL_USER body provider = ⟨some missingFieldsResponse, []⟩ := by
  unfold sendContact
  rw [if_pos]
  rcases h with h | h | h | h <;> simp [h]

theorem sendContact_badEmail (EMAIL_USER : Option String) (body : RequestBody)
    (provider : Nat → Outcome)
    (h : truthy body.email = true ∧ truthy body.clientName = true ∧
      truthy body.projectTitle = true ∧ truthy body.description = true)
    (he : emailRegexTest (toStr body.email) = false) :
    sendContact EMAIL_USER body provider = ⟨some invalidEmailResponse, []⟩ := by
  unfold sendContact
  simp [h.1, h.2.1, h.2.2.1, h.2.2.2, he]

/-- The three rounds of the retry loop, spelled out. -/
theorem retryLoop_three (provider : Nat → Outcome) (mail : Mail) :
    retryLoop provider mail 3 0 none =
      match provider 0 with
      | .resolved => (.ok successResponse, [.sendMail mail])
      | .rejected _ =>
        match provider 1 with
        | .resolved => (.ok successResponse, [.sendMail mail, .wait 1000, .sendMail mail])
        | .rejected _ =>
          match provider 2 with
          | .resolved =>
              (.ok successResponse,
                [.sendMail mail, .wait 1000, .sendMail mail, .wait 1000, .sendMail mail])
          | .rejected e2 =>
              (.error (some e2),
                [.sendMail mail, .wait 1000, .sendMail mail, .wait 1000, .sendMail mail]) := by
  cases h0 : provider 0 <;> cases h1 : provider 1 <;> cases h2 : provider 2 <;>
    simp [retryLoop, h0, h1, h2]

theorem sendContact_valid (EMAIL_USER : Option String) (body : RequestBody)
    (provider : Nat → Outcome) (hv : validSubmission body = true) :
    sendContact EMAIL_USER body provider =
      match retryLoop provider (mailOptions EMAIL_USER body) 3 0 none with
      | (.ok response, trace) => ⟨some response, trace⟩
      | (.error error, trace) => ⟨catchResponse error, trace⟩ := by
  obtain ⟨⟨h1, h2, h3, h4⟩, h5⟩ := (validSubmission_iff body).mp hv
  unfold sendContact
  simp [h1, h2, h3, h4, h5]

/-! ## Validation -/

/-- C1: a request body in which at least one of `email`, `clientName`,
`projectTitle`, `description` is absent or empty is answered with status 400
and the "Missing required fields" body, whatever the other fields hold, and
nothing is sent. -/
theorem missing_required_fields_rejected (EMAIL_USER : Option String) (body : RequestBody)
    (provider : Nat → Outcome)
    (h : AbsentOrEmpty body.email ∨ AbsentOrEmpty body.clientName ∨
      AbsentOrEmpty body.projectTitle ∨ AbsentOrEmpty body.description) :
    sendContact EMAIL_USER body provider =
      ⟨some ⟨400, [("error", "Missing required fields"),
        ("details", "Email, client name, project title, and description are required")]⟩,
       []⟩ := by
  simp only [← truthy_eq_false_iff] at h
  exact sendContact_missing EMAIL_USER body provider h

/-- Witness of C1: the specification's scenario, a body holding only `clientName`; and a
body whose only defect is an empty description, with a malformed email. -/
theorem missing_required_fields_rejected_witness :
    sendContact none ⟨none, some "Ana", none, none, none, none⟩ (scripted []) =
        ⟨some ⟨400, [("error", "Missing required fields"),
          ("details", "Email, client name, project title, and description are required")]⟩,
         []⟩ ∧
      sendContact none ⟨some "not an email", some "Ana", some "Website", some "", none, none⟩
          (scripted []) =
        ⟨some ⟨400, [("error", "Missing required fields"),
          ("details", "Email, client name, project title, and description are required")]⟩,
         []⟩ :=
  ⟨missing_required_fields_rejected none _ _ (Or.inl (Or.inl rfl)),
   missing_required_fields_rejected none _ _ (Or.inr (Or.inr (Or.inr (Or.inr rfl))))⟩

/-- C2: when the four required fields are non-empty and the email has no `@`, or
has an `@` with no `.` anywhere after it, the response is status 400 with error
"Invalid email format" and details "Please provide a valid email address", and
nothing is sent. -/
theorem email_without_at_or_dot_rejected (EMAIL_USER : Option String) (body : RequestBody)
    (provider : Nat → Outcome) (email : String)
    (hemail : body.email = some email)
    (hreq : ¬ AbsentOrEmpty body.email ∧ ¬ AbsentOrEmpty body.clientName ∧
      ¬ AbsentOrEmpty body.projectTitle ∧ ¬ AbsentOrEmpty body.description)
    (hbad : '@' ∉ email.toList ∨ ∃ a b, email.toList = a ++ '@' :: b ∧ '.' ∉ b) :
    sendContact EMAIL_USER body provider =
      ⟨some ⟨400, [("error", "Invalid email format"),
        ("details", "Please provide a valid email address")]⟩, []⟩ := by
  simp only [← truthy_eq_false_iff, Bool.not_eq_false] at hreq
  apply sendContact_badEmail EMAIL_USER body provider hreq
  rw [hemail, toStr]
  cases hte : emailRegexTest email with
  | false => rfl
  | true =>
      have hshape := (emailRegexTest_iff email).mp hte
      rcases hbad with hno | ⟨a, b, hab, hdot⟩
      · exact absurd hshape.mem_at hno
      · exact absurd (hshape.dot_after_at a b hab) hdot

/-- Witness of C2: an email without `@`. -/
theorem email_without_at_or_dot_rejected_witness :
    sendContact none ⟨some "ana.example.com", some "Ana", some "Website", some "Need a site",
        none, none⟩ (scripted []) =
      ⟨some ⟨400, [("error", "Invalid email format"),
        ("details", "Please provide a valid email address")]⟩, []⟩ :=
  email_without_at_or_dot_rejected none _ _ "ana.example.com" rfl
    (by simp [AbsentOrEmpty]) (Or.inl (by decide))

/-- C3 as stated fails: `a@b.c@d` has the shape the specification words (its final
segment `c@d` is free of whitespace), yet the source's pattern rejects it and the
handler answers with the invalid-email-format error. -/
theorem spec_email_shape_counterexample :
    SpecEmailShape "a@b.c@d".toList ∧ emailRegexTest "a@b.c@d" = false ∧
      sendContact none ⟨some "a@b.c@d", some "Ana", some "Website", some "Need a site",
          none, none⟩ (scripted []) =
        ⟨some invalidEmailResponse, []⟩ := by
  refine ⟨⟨['a'], ['b'], ['c', '@', 'd'], by decide, ?_, ?_, ?_⟩, by decide, by decide⟩
  · exact ⟨by decide, by decide⟩
  · exact ⟨by decide, by decide⟩
  · exact ⟨by decide, by decide⟩

/-- C3, amended: the email check accepts a string exactly when the whole string is
a non-empty run of characters that are neither whitespace nor `@`, then `@`, then
such a run, then `.`, then again such a run (the final segment excludes `@` too);
every other email of a submission with its required fields present is answered
with the invalid-email-format error. -/
theorem email_check_accepts_iff_shape (email : String) :
    (emailRegexTest email = true ↔ EmailShape email.toList) ∧
      ∀ (EMAIL_USER : Option String) (body : RequestBody) (provider : Nat → Outcome),
        body.email = some email → email ≠ "" → ¬ AbsentOrEmpty body.clientName →
        ¬ AbsentOrEmpty body.projectTitle → ¬ AbsentOrEmpty body.description →
        ¬ EmailShape email.toList →
        sendContact EMAIL_USER body provider =
          ⟨some ⟨400, [("error", "Invalid email format"),
            ("details", "Please provide a valid email address")]⟩, []⟩ := by
  refine ⟨emailRegexTest_iff email, ?_⟩
  intro EMAIL_USER body provider hemail hne hc hp hd hshape
  simp only [← truthy_eq_false_iff, Bool.not_eq_false] at hc hp hd
  have he : truthy body.email = true := by simp [hemail, truthy, hne]
  apply sendContact_badEmail EMAIL_USER body provider ⟨he, hc, hp, hd⟩
  rw [hemail, toStr]
  cases hte : emailRegexTest email with
  | false => rfl
  | true => exact absurd ((emailRegexTest_iff email).mp hte) hshape

/-- Witness of C3 (amended): `a@b.com` is accepted, through the shape. -/
theorem email_check_accepts_iff_shape_witness : emailRegexTest "a@b.com" = true :=
  (email_check_accepts_iff_shape "a@b.com").1.mpr
    ⟨['a'], ['b'], ['c', 'o', 'm'], by decide, ⟨by decide, by decide⟩, ⟨by decide, by decide⟩,
      ⟨by decide, by decide⟩⟩

/-! ## Delivery with retries -/

/-- C4: for a valid submission, when the first `sendMail` call that resolves is
call `k` with `1 ≤ k ≤ 3` (all earlier calls being rejected), the response is
status 200 with the success message and `status: "success"`, and exactly `k`
calls are made. -/
theorem success_within_three_attempts (EMAIL_USER : Option String) (body : RequestBody)
    (provider : Nat → Outcome) (k : Nat)
    (hv : validSubmission body = true) (hk : 1 ≤ k ∧ k ≤ 3)
    (hfail : ∀ j, j + 1 < k → provider j ≠ .resolved)
    (hok : provider (k - 1) = .resolved) :
    (sendContact EMAIL_USER body provider).response =
        some ⟨200, [("message",
          "Your message has been sent successfully! We will get back to you soon."),
          ("status", "success")]⟩ ∧
      (sentMails (sendContact EMAIL_USER body provider).trace).length = k := by
  rw [sendContact_valid EMAIL_USER body provider hv, retryLoop_three]
  obtain ⟨h1, h3⟩ := hk
  have hcases : k = 1 ∨ k = 2 ∨ k = 3 := by omega
  rcases hcases with rfl | rfl | rfl
  · simp only [Nat.sub_self] at hok
    simp [hok, sentMails, successResponse]
  · have h0 := hfail 0 (by omega)
    simp only [Nat.add_one_sub_one] at hok
    cases hp0 : provider 0 with
    | resolved => exact absurd hp0 h0
    | rejected e0 => simp [hok, sentMails, successResponse]
  · have h0 := hfail 0 (by omega)
    have h1 := hfail 1 (by omega)
    simp only [Nat.add_one_sub_one] at hok
    cases hp0 : provider 0 with
    | resolved => exact absurd hp0 h0
    | rejected e0 =>
        cases hp1 : provider 1 with
        | resolved => exact absurd hp1 h1
        | rejected e1 => simp [hok, sentMails, successResponse]

/-- Witness of C4: the provider rejects twice and resolves the third call. -/
theorem success_within_three_attempts_witness :
    (sendContact (some "inbox@example.com") exampleBody
        (scripted [.rejected ⟨"ETIMEDOUT"⟩, .rejected ⟨"ECONNRESET"⟩])).response =
        some ⟨200, [("message",
          "Your message has been sent successfully! We will get back to you soon."),
          ("status", "success")]⟩ ∧
      (sentMails (sendContact (some "inbox@example.com") exampleBody
        (scripted [.rejected ⟨"ETIMEDOUT"⟩, .rejected ⟨"ECONNRESET"⟩])).trace).length = 3 :=
  success_within_three_attempts _ _ _ 3 (by decide) (by decide)
    (by intro j hj
        have : j = 0 ∨ j = 1 := by omega
        rcases this with rfl | rfl <;> simp [scripted])
    (by simp [scripted])

/-- C5: for a valid submission, when the first three `sendMail` calls are all
rejected, the response is status 500 with error "Failed to send message" and
exactly three calls are made, whatever the provider would answer to later
calls. -/
theorem three_failures_give_500 (EMAIL_USER : Option String) (body : RequestBody)
    (provider : Nat → Outcome)
    (hv : validSubmission body = true)
    (hfail : ∀ j, j < 3 → provider j ≠ .resolved) :
    (∃ details, (sendContact EMAIL_USER body provider).response =
        some ⟨500, [("error", "Failed to send message"), ("details", details)]⟩) ∧
      (sentMails (sendContact EMAIL_USER body provider).trace).length = 3 := by
  rw [sendContact_valid EMAIL_USER body provider hv, retryLoop_three]
  cases hp0 : provider 0 with
  | resolved => exact absurd hp0 (hfail 0 (by omega))
  | rejected e0 =>
      cases hp1 : provider 1 with
      | resolved => exact absurd hp1 (hfail 1 (by omega))
      | rejected e1 =>
          cases hp2 : provider 2 with
          | resolved => exact absurd hp2 (hfail 2 (by omega))
          | rejected e2 => simp [sentMails, catchResponse]

/-- Witness of C5: a provider that rejects three calls and would resolve a
fourth. -/
theorem three_failures_give_500_witness :
    (∃ details, (sendContact (some "inbox@example.com") exampleBody
        (scripted [.rejected ⟨"one"⟩, .rejected ⟨"two"⟩, .rejected ⟨"three"⟩])).response =
        some ⟨500, [("error", "Failed to send message"), ("details", details)]⟩) ∧
      (sentMails (sendContact (some "inbox@example.com") exampleBody
        (scripted [.rejected ⟨"one"⟩, .rejected ⟨"two"⟩, .rejected ⟨"three"⟩])).trace).length
        = 3 :=
  three_failures_give_500 _ _ _ (by decide)
    (by intro j hj
        have : j = 0 ∨ j = 1 ∨ j = 2 := by omega
        rcases this with rfl | rfl | rfl <;> simp [scripted])

/-- C6 as stated fails: when the third rejection carries an empty message, the
details of the 500 response are the fallback text, not the (empty) message of
the last error. -/
theorem empty_error_message_counterexample :
    (sendContact (some "inbox@example.com") exampleBody
        (scripted [.rejected ⟨"one"⟩, .rejected ⟨"two"⟩, .rejected ⟨""⟩])).response =
        some ⟨500, [("error", "Failed to send message"),
          ("details", "An unexpected error occurred")]⟩ ∧
      "An unexpected error occurred" ≠ (SendError.mk "").message := by
  decide

/-- C6, amended: for a valid submission whose three `sendMail` calls are
rejected, the details of the 500 response are the message of the third error
whenever that message is non-empty (never the message of an earlier call), and
the text "An unexpected error occurred" when it is empty. -/
theorem details_are_last_error_message (EMAIL_USER : Option String) (body : RequestBody)
    (provider : Nat → Outcome) (e0 e1 e2 : SendError)
    (hv : validSubmission body = true)
    (h0 : provider 0 = .rejected e0) (h1 : provider 1 = .rejected e1)
    (h2 : provider 2 = .rejected e2) :
    (sendContact EMAIL_USER body provider).response =
      some ⟨500, [("error", "Failed to send message"),
        ("details", if e2.message = "" then "An unexpected error occurred" else e2.message)]⟩ := by
  rw [sendContact_valid EMAIL_USER body provider hv, retryLoop_three]
  by_cases hm : e2.message = ""
  · simp [h0, h1, h2, catchResponse, jsOr, truthy, toStr, hm]
  · simp [h0, h1, h2, catchResponse, jsOr, truthy, toStr, hm]

/-- Witness of C6 (amended): three rejections with distinct messages; the
details are the third message. -/
theorem details_are_last_error_message_witness :
    (sendContact (some "inbox@example.com") exampleBody
        (scripted [.rejected ⟨"one"⟩, .rejected ⟨"two"⟩, .rejected ⟨"three"⟩])).response =
      some ⟨500, [("error", "Failed to send message"), ("details", "three")]⟩ :=
  details_are_last_error_message _ _ _ ⟨"one"⟩ ⟨"two"⟩ ⟨"three"⟩ (by decide) rfl rfl rfl

/-! ## Rendering -/

theorem toList_emailContent (body : RequestBody) :
    (emailContent body).toList =
      tplHead.toList ++ ((toStr body.clientName).toList ++
      (tplAfterClientName.toList ++ ((toStr body.email).toList ++
      (tplAfterEmail.toList ++ ((toStr (jsOr body.phoneNumber "Not provided")).toList ++
      (tplAfterPhoneNumber.toList ++ ((toStr body.projectTitle).toList ++
      (tplAfterProjectTitle.toList ++ ((toStr (jsOr body.timeline "Not specified")).toList ++
      (tplAfterTimeline.toList ++ ((toStr body.description).toList ++
      tplAfterDescription.toList))))))))))) := by
  simp [emailContent]

/-- A value framed by the end of the text before it and the start of the text
after it. -/
theorem infix_of_suffix_of_prefix {α : Type} {l r X Y : List α} (v A B : List α)
    (hl : l <:+ X) (hr : r <+: Y) : l ++ (v ++ r) <:+: A ++ (X ++ (v ++ (Y ++ B))) := by
  obtain ⟨x, rfl⟩ := hl
  obtain ⟨y, rfl⟩ := hr
  exact ⟨A ++ x, y ++ B, by simp⟩

set_option maxRecDepth 100000 in
theorem phoneNumber_label_suffix :
    ("<div class=\"label\">📱 Phone Number:</div>\n            <div class=\"value\">").toList <:+
      tplAfterEmail.toList := by
  decide

set_option maxRecDepth 100000 in
theorem budget_label_suffix :
    ("<div class=\"label\">💰 Budget (INR):</div>\n            <div class=\"value\">").toList <:+
      tplAfterProjectTitle.toList := by
  decide

set_option maxRecDepth 100000 in
theorem preLine_open_suffix :
    ("<div class=\"value\" style=\"white-space: pre-line;\">").toList <:+
      tplAfterTimeline.toList := by
  decide

set_option maxRecDepth 100000 in
theorem close_prefix :
    "</div>".toList <+: tplAfterPhoneNumber.toList ∧
      "</div>".toList <+: tplAfterTimeline.toList ∧
      "</div>".toList <+: tplAfterDescription.toList := by
  decide

theorem contains_phoneNumberBox (body : RequestBody) :
    Contains (emailContent body) (phoneNumberBox (toStr (jsOr body.phoneNumber "Not provided"))) := by
  unfold Contains
  rw [toList_emailContent]
  have h := infix_of_suffix_of_prefix (toStr (jsOr body.phoneNumber "Not provided")).toList
    (tplHead.toList ++ ((toStr body.clientName).toList ++
      (tplAfterClientName.toList ++ (toStr body.email).toList)))
    ((toStr body.projectTitle).toList ++
      (tplAfterProjectTitle.toList ++ ((toStr (jsOr body.timeline "Not specified")).toList ++
      (tplAfterTimeline.toList ++ ((toStr body.description).toList ++
      tplAfterDescription.toList)))))
    phoneNumber_label_suffix close_prefix.1
  simpa [phoneNumberBox] using h

theorem contains_budgetBox (body : RequestBody) :
    Contains (emailContent body) (budgetBox (toStr (jsOr body.timeline "Not specified"))) := by
  unfold Contains
  rw [toList_emailContent]
  have h := infix_of_suffix_of_prefix (toStr (jsOr body.timeline "Not specified")).toList
    (tplHead.toList ++ ((toStr body.clientName).toList ++
      (tplAfterClientName.toList ++ ((toStr body.email).toList ++
      (tplAfterEmail.toList ++ ((toStr (jsOr body.phoneNumber "Not provided")).toList ++
      (tplAfterPhoneNumber.toList ++ (toStr body.projectTitle).toList)))))))
    ((toStr body.description).toList ++ tplAfterDescription.toList)
    budget_label_suffix close_prefix.2.1
  simpa [budgetBox] using h

theorem contains_preLineElement (body : RequestBody) :
    Contains (emailContent body) (preLineElement (toStr body.description)) := by
  unfold Contains
  rw [toList_emailContent]
  have h := infix_of_suffix_of_prefix (toStr body.description).toList
    (tplHead.toList ++ ((toStr body.clientName).toList ++
      (tplAfterClientName.toList ++ ((toStr body.email).toList ++
      (tplAfterEmail.toList ++ ((toStr (jsOr body.phoneNumber "Not provided")).toList ++
      (tplAfterPhoneNumber.toList ++ ((toStr body.projectTitle).toList ++
      (tplAfterProjectTitle.toList ++
        (toStr (jsOr body.timeline "Not specified")).toList)))))))))
    []
    preLine_open_suffix close_prefix.2.2
  simpa [preLineElement] using h

theorem contains_fields (body : RequestBody) :
    Contains (emailContent body) (toStr body.clientName) ∧
      Contains (emailContent body) (toStr body.email) ∧
      Contains (emailContent body) (toStr body.projectTitle) ∧
      Contains (emailContent body) (toStr body.description) := by
  unfold Contains
  rw [toList_emailContent]
  refine ⟨?_, ?_, ?_, ?_⟩ <;>
    repeat first
      | exact (List.prefix_append _ _).isInfix
      | refine List.IsInfix.trans ?_ (List.suffix_append _ _).isInfix

/-- The mails of a valid submission: between one and three copies of
`mailOptions`. -/
theorem sentMails_valid (EMAIL_USER : Option String) (body : RequestBody)
    (provider : Nat → Outcome) (hv : validSubmission body = true) :
    sentMails (sendContact EMAIL_USER body provider).trace ≠ [] ∧
      ∀ m ∈ sentMails (sendContact EMAIL_USER body provider).trace,
        m = mailOptions EMAIL_USER body := by
  rw [sendContact_valid EMAIL_USER body provider hv, retryLoop_three]
  cases provider 0 <;> cases provider 1 <;> cases provider 2 <;> simp [sentMails]

/-! ## The value elements of the optional fields -/

/-- The place of the one occurrence of a character: two splits of a list around
`c` agree when `c` occurs on neither side of one of them. -/
theorem split_unique {c : Char} {x y h1 h2 : List Char}
    (h : x ++ c :: y = h1 ++ c :: h2) (hc1 : c ∉ h1) (hc2 : c ∉ h2) : x = h1 ∧ y = h2 := by
  rcases List.append_eq_append_iff.mp h with ⟨m, rfl, hm⟩ | ⟨m, rfl, hm⟩
  · cases m with
    | nil => simp at hm; simp [hm]
    | cons d m =>
        simp at hm
        obtain ⟨rfl, rfl⟩ := hm
        exact absurd (by simp) hc1
  · cases m with
    | nil => simp at hm; simp [hm]
    | cons d m =>
        simp at hm
        obtain ⟨rfl, rfl⟩ := hm
        exact absurd (by simp) hc2

/-- The text before the first occurrence of a character is determined. -/
theorem first_occurrence {c : Char} {x y x2 y2 : List Char}
    (h : x ++ c :: y = x2 ++ c :: y2) (hx : c ∉ x) (hx2 : c ∉ x2) : x = x2 := by
  rcases List.append_eq_append_iff.mp h with ⟨m, rfl, hm⟩ | ⟨m, rfl, hm⟩
  · cases m with
    | nil => simp
    | cons d m =>
        simp at hm
        obtain ⟨rfl, _⟩ := hm
        exact absurd (by simp) hx2
  · cases m with
    | nil => simp
    | cons d m =>
        simp at hm
        obtain ⟨rfl, _⟩ := hm
        exact absurd (by simp) hx

/-- A document with a single `c`, followed by `lab`, a value `T` free of `<` and
then `<`, has no labelled element with another `<`-free value `d` at `c`. -/
theorem no_other_value {c : Char} {b1 lab d cl h1 T rest : List Char}
    (hc1 : c ∉ h1) (hclab : c ∉ lab) (hcT : c ∉ T) (hcrest : c ∉ rest) (hclt : c ≠ '<')
    (hd : '<' ∉ d) (hT : '<' ∉ T) (hne : d ≠ T) :
    ¬ (b1 ++ c :: (lab ++ (d ++ '<' :: cl))) <:+: (h1 ++ c :: (lab ++ (T ++ '<' :: rest))) := by
  rintro ⟨u, v, huv⟩
  have h : (u ++ b1) ++ c :: (lab ++ (d ++ '<' :: (cl ++ v))) =
      h1 ++ c :: (lab ++ (T ++ '<' :: rest)) := by
    simpa using huv
  have hc2 : c ∉ lab ++ (T ++ '<' :: rest) := by
    simp only [List.mem_append, List.mem_cons, not_or]
    exact ⟨hclab, hcT, hclt, hcrest⟩
  obtain ⟨_, h2⟩ := split_unique h hc1 hc2
  have h3 := List.append_cancel_left h2
  exact hne (first_occurrence h3 hd hT)

set_option maxRecDepth 1000000 in
/-- The money-bag sign occurs once in the fixed text of the template, in the
Budget label, and the text after the Budget value starts with `<`. -/
theorem budget_frame :
    ('💰' ∉ tplHead.toList ∧ '💰' ∉ tplAfterClientName.toList ∧ '💰' ∉ tplAfterEmail.toList ∧
      '💰' ∉ tplAfterPhoneNumber.toList ∧ '💰' ∉ tplAfterDescription.toList) ∧
    ∃ X R : List Char,
      tplAfterProjectTitle.toList =
        X ++ '💰' :: " Budget (INR):</div>\n            <div class=\"value\">".toList ∧
      '💰' ∉ X ∧ tplAfterTimeline.toList = '<' :: R ∧ '💰' ∉ R := by
  refine ⟨by decide, tplAfterProjectTitle.toList.take 89, tplAfterTimeline.toList.tail, ?_⟩
  decide

set_option maxRecDepth 1000000 in
/-- The mobile-phone sign occurs once in the fixed text of the template, in the
Phone Number label, and the text after the Phone Number value starts with `<`. -/
theorem phoneNumber_frame :
    ('📱' ∉ tplHead.toList ∧ '📱' ∉ tplAfterClientName.toList ∧
      '📱' ∉ tplAfterProjectTitle.toList ∧ '📱' ∉ tplAfterTimeline.toList ∧
      '📱' ∉ tplAfterDescription.toList) ∧
    ∃ X R : List Char,
      tplAfterEmail.toList =
        X ++ '📱' :: " Phone Number:</div>\n            <div class=\"value\">".toList ∧
      '📱' ∉ X ∧ tplAfterPhoneNumber.toList = '<' :: R ∧ '📱' ∉ R := by
  refine ⟨by decide, tplAfterEmail.toList.take 89, tplAfterPhoneNumber.toList.tail, ?_⟩
  decide

/-- When the rendered Budget value `T` is free of `<`, differs from the default
text, and no rendered value holds the money-bag sign, the document has no Budget
element holding the default text. -/
theorem not_contains_default_budget (body : RequestBody)
    (hne : toStr (jsOr body.timeline "Not specified") ≠ "Not specified")
    (hlt : '<' ∉ (toStr (jsOr body.timeline "Not specified")).toList)
    (hsign : '💰' ∉ (toStr body.clientName).toList ∧ '💰' ∉ (toStr body.email).toList ∧
      '💰' ∉ (toStr (jsOr body.phoneNumber "Not provided")).toList ∧
      '💰' ∉ (toStr body.projectTitle).toList ∧
      '💰' ∉ (toStr (jsOr body.timeline "Not specified")).toList ∧
      '💰' ∉ (toStr body.description).toList) :
    ¬ Contains (emailContent body) (budgetBox "Not specified") := by
  obtain ⟨⟨s0, s1, s2, s3, s6⟩, X, R, hX, hcX, hR, hcR⟩ := budget_frame
  obtain ⟨f1, f2, f3, f4, f5, f6⟩ := hsign
  unfold Contains
  have hdoc : (emailContent body).toList =
      (tplHead.toList ++ ((toStr body.clientName).toList ++
        (tplAfterClientName.toList ++ ((toStr body.email).toList ++
        (tplAfterEmail.toList ++ ((toStr (jsOr body.phoneNumber "Not provided")).toList ++
        (tplAfterPhoneNumber.toList ++ ((toStr body.projectTitle).toList ++ X)))))))) ++
      '💰' :: (" Budget (INR):</div>\n            <div class=\"value\">".toList ++
        ((toStr (jsOr body.timeline "Not specified")).toList ++
          '<' :: (R ++ ((toStr body.description).toList ++ tplAfterDescription.toList)))) := by
    rw [toList_emailContent, hX, hR]
    simp
  have hbox : (budgetBox "Not specified").toList =
      "<div class=\"label\">".toList ++
        '💰' :: (" Budget (INR):</div>\n            <div class=\"value\">".toList ++
          ("Not specified".toList ++ '<' :: "/div>".toList)) := by
    decide
  rw [hdoc, hbox]
  apply no_other_value
  · simp only [List.mem_append, not_or]
    exact ⟨s0, f1, s1, f2, s2, f3, s3, f4, hcX⟩
  · decide
  · exact f5
  · simp only [List.mem_append, not_or]
    exact ⟨hcR, f6, s6⟩
  · decide
  · decide
  · exact hlt
  · exact fun h => hne (String.ext h.symm)

/-- The Phone Number counterpart of `not_contains_default_budget`. -/
theorem not_contains_default_phoneNumber (body : RequestBody)
    (hne : toStr (jsOr body.phoneNumber "Not provided") ≠ "Not provided")
    (hlt : '<' ∉ (toStr (jsOr body.phoneNumber "Not provided")).toList)
    (hsign : '📱' ∉ (toStr body.clientName).toList ∧ '📱' ∉ (toStr body.email).toList ∧
      '📱' ∉ (toStr (jsOr body.phoneNumber "Not provided")).toList ∧
      '📱' ∉ (toStr body.projectTitle).toList ∧
      '📱' ∉ (toStr (jsOr body.timeline "Not specified")).toList ∧
      '📱' ∉ (toStr body.description).toList) :
    ¬ Contains (emailContent body) (phoneNumberBox "Not provided") := by
  obtain ⟨⟨s0, s1, s4, s5, s6⟩, X, R, hX, hcX, hR, hcR⟩ := phoneNumber_frame
  obtain ⟨f1, f2, f3, f4, f5, f6⟩ := hsign
  unfold Contains
  have hdoc : (emailContent body).toList =
      (tplHead.toList ++ ((toStr body.clientName).toList ++
        (tplAfterClientName.toList ++ ((toStr body.email).toList ++ X)))) ++
      '📱' :: (" Phone Number:</div>\n            <div class=\"value\">".toList ++
        ((toStr (jsOr body.phoneNumber "Not provided")).toList ++
          '<' :: (R ++ ((toStr body.projectTitle).toList ++
            (tplAfterProjectTitle.toList ++
            ((toStr (jsOr body.timeline "Not specified")).toList ++
            (tplAfterTimeline.toList ++
            ((toStr body.description).toList ++ tplAfterDescription.toList)))))))) := by
    rw [toList_emailContent, hX, hR]
    simp
  have hbox : (phoneNumberBox "Not provided").toList =
      "<div class=\"label\">".toList ++
        '📱' :: (" Phone Number:</div>\n            <div class=\"value\">".toList ++
          ("Not provided".toList ++ '<' :: "/div>".toList)) := by
    decide
  rw [hdoc, hbox]
  apply no_other_value
  · simp only [List.mem_append, not_or]
    exact ⟨s0, f1, s1, f2, hcX⟩
  · decide
  · exact f3
  · simp only [List.mem_append, not_or]
    exact ⟨hcR, f4, s4, f5, s5, f6, s6⟩
  · decide
  · decide
  · exact hlt
  · exact fun h => hne (String.ext h.symm)

/-- The document around the Budget element does not depend on `timeline`. -/
theorem emailContent_around_budget (email clientName projectTitle description phoneNumber :
    Option String) :
    ∃ pre post : String, ∀ timeline : Option String,
      emailContent ⟨email, clientName, projectTitle, description, timeline, phoneNumber⟩ =
        pre ++ budgetBox (toStr (jsOr timeline "Not specified")) ++ post := by
  obtain ⟨x, hx⟩ := budget_label_suffix
  obtain ⟨y, hy⟩ := close_prefix.2.1
  refine ⟨⟨tplHead.toList ++ ((toStr clientName).toList ++
      (tplAfterClientName.toList ++ ((toStr email).toList ++
      (tplAfterEmail.toList ++ ((toStr (jsOr phoneNumber "Not provided")).toList ++
      (tplAfterPhoneNumber.toList ++ ((toStr projectTitle).toList ++ x)))))))⟩,
    ⟨y ++ ((toStr description).toList ++ tplAfterDescription.toList)⟩, ?_⟩
  intro timeline
  apply String.ext
  have h := toList_emailContent
    ⟨email, clientName, projectTitle, description, timeline, phoneNumber⟩
  simp only [String.toList] at h hx hy
  rw [h, ← hx, ← hy]
  simp [budgetBox]

/-- The document around the Phone Number element does not depend on
`phoneNumber`. -/
theorem emailContent_around_phoneNumber (email clientName projectTitle description timeline :
    Option String) :
    ∃ pre post : String, ∀ phoneNumber : Option String,
      emailContent ⟨email, clientName, projectTitle, description, timeline, phoneNumber⟩ =
        pre ++ phoneNumberBox (toStr (jsOr phoneNumber "Not provided")) ++ post := by
  obtain ⟨x, hx⟩ := phoneNumber_label_suffix
  obtain ⟨y, hy⟩ := close_prefix.1
  refine ⟨⟨tplHead.toList ++ ((toStr clientName).toList ++
      (tplAfterClientName.toList ++ ((toStr email).toList ++ x)))⟩,
    ⟨y ++ ((toStr projectTitle).toList ++
      (tplAfterProjectTitle.toList ++ ((toStr (jsOr timeline "Not specified")).toList ++
      (tplAfterTimeline.toList ++ ((toStr description).toList ++
      tplAfterDescription.toList)))))⟩, ?_⟩
  intro phoneNumber
  apply String.ext
  have h := toList_emailContent
    ⟨email, clientName, projectTitle, description, timeline, phoneNumber⟩
  simp only [String.toList] at h hx hy
  rw [h, ← hx, ← hy]
  simp [phoneNumberBox]

/-- C7: for a submission that passes validation, at least one mail is handed to
the provider and the HTML of every mail handed over contains the submitted
`clientName`, `email`, `projectTitle` and `description` as contiguous,
unmodified substrings, the description sitting inside an element styled
`white-space: pre-line`. -/
theorem html_contains_submitted_values (EMAIL_USER : Option String)
    (email clientName projectTitle description : String) (timeline phoneNumber : Option String)
    (provider : Nat → Outcome)
    (hv : validSubmission
      ⟨some email, some clientName, some projectTitle, some description, timeline,
        phoneNumber⟩ = true) :
    sentMails (sendContact EMAIL_USER
        ⟨some email, some clientName, some projectTitle, some description, timeline,
          phoneNumber⟩ provider).trace ≠ [] ∧
      ∀ m ∈ sentMails (sendContact EMAIL_USER
          ⟨some email, some clientName, some projectTitle, some description, timeline,
            phoneNumber⟩ provider).trace,
        Contains m.html clientName ∧ Contains m.html email ∧ Contains m.html projectTitle ∧
          Contains m.html description ∧ Contains m.html (preLineElement description) := by
  obtain ⟨hne, hall⟩ := sentMails_valid EMAIL_USER _ provider hv
  refine ⟨hne, ?_⟩
  intro m hm
  rw [hall m hm]
  obtain ⟨h1, h2, h3, h4⟩ := contains_fields
    ⟨some email, some clientName, some projectTitle, some description, timeline, phoneNumber⟩
  exact ⟨h1, h2, h3, h4, contains_preLineElement
    ⟨some email, some clientName, some projectTitle, some description, timeline, phoneNumber⟩⟩

/-- Witness of C7: the specification's example submission, with markup in the
description. -/
theorem html_contains_submitted_values_witness :
    sentMails (sendContact (some "inbox@example.com")
        ⟨some "a@b.com", some "Ana", some "Website", some "Need <b>a</b> site\n& more", none,
          none⟩ (scripted [])).trace ≠ [] ∧
      ∀ m ∈ sentMails (sendContact (some "inbox@example.com")
          ⟨some "a@b.com", some "Ana", some "Website", some "Need <b>a</b> site\n& more", none,
            none⟩ (scripted [])).trace,
        Contains m.html "Ana" ∧ Contains m.html "a@b.com" ∧ Contains m.html "Website" ∧
          Contains m.html "Need <b>a</b> site\n& more" ∧
          Contains m.html (preLineElement "Need <b>a</b> site\n& more") :=
  html_contains_submitted_values _ _ _ _ _ _ _ _ (by decide)

/-- C8: for a valid submission, every mail handed to the provider shows
"Not specified" as the Budget value when `timeline` is omitted and
"Not provided" as the Phone Number value when `phoneNumber` is omitted; when
either field is a non-empty string, that string is the content of the value
element in its place and the default text is not rendered for that field: the
document is the one rendered without the field, with the element holding the
default text replaced by the element holding the string, and (for a string
other than the default text and free of `<`, the label sign occurring in no
submitted value) the document has no element of that label holding the default
text. -/
theorem optional_fields_rendered (EMAIL_USER : Option String)
    (email clientName projectTitle description : String) (timeline phoneNumber : Option String)
    (provider : Nat → Outcome)
    (hv : validSubmission
      ⟨some email, some clientName, some projectTitle, some description, timeline,
        phoneNumber⟩ = true) :
    sentMails (sendContact EMAIL_USER
        ⟨some email, some clientName, some projectTitle, some description, timeline,
          phoneNumber⟩ provider).trace ≠ [] ∧
      ∀ m ∈ sentMails (sendContact EMAIL_USER
          ⟨some email, some clientName, some projectTitle, some description, timeline,
            phoneNumber⟩ provider).trace,
        (timeline = none → Contains m.html (budgetBox "Not specified")) ∧
          (phoneNumber = none → Contains m.html (phoneNumberBox "Not provided")) ∧
          (∀ s, timeline = some s → s ≠ "" → Contains m.html (budgetBox s)) ∧
          (∀ s, phoneNumber = some s → s ≠ "" → Contains m.html (phoneNumberBox s)) ∧
          (∀ s, timeline = some s → s ≠ "" → ∃ pre post : String,
            m.html = pre ++ budgetBox s ++ post ∧
            (mailOptions EMAIL_USER
              ⟨some email, some clientName, some projectTitle, some description, none,
                phoneNumber⟩).html = pre ++ budgetBox "Not specified" ++ post) ∧
          (∀ s, phoneNumber = some s → s ≠ "" → ∃ pre post : String,
            m.html = pre ++ phoneNumberBox s ++ post ∧
            (mailOptions EMAIL_USER
              ⟨some email, some clientName, some projectTitle, some description, timeline,
                none⟩).html = pre ++ phoneNumberBox "Not provided" ++ post) ∧
          (∀ s, timeline = some s → s ≠ "" → s ≠ "Not specified" → '<' ∉ s.toList →
            FreeOf '💰' [clientName, email, projectTitle, description, s,
              phoneNumber.getD ""] →
            ¬ Contains m.html (budgetBox "Not specified")) ∧
          (∀ s, phoneNumber = some s → s ≠ "" → s ≠ "Not provided" → '<' ∉ s.toList →
            FreeOf '📱' [clientName, email, projectTitle, description, s,
              timeline.getD ""] →
            ¬ Contains m.html (phoneNumberBox "Not provided")) := by
  obtain ⟨hne, hall⟩ := sentMails_valid EMAIL_USER _ provider hv
  refine ⟨hne, ?_⟩
  intro m hm
  rw [hall m hm]
  have hb := contains_budgetBox
    ⟨some email, some clientName, some projectTitle, some description, timeline, phoneNumber⟩
  have hp := contains_phoneNumberBox
    ⟨some email, some clientName, some projectTitle, some description, timeline, phoneNumber⟩
  simp only [mailOptions] at *
  refine ⟨?_, ?_, ?_, ?_, ?_, ?_, ?_, ?_⟩
  · rintro rfl
    simpa [jsOr, truthy, toStr] using hb
  · rintro rfl
    simpa [jsOr, truthy, toStr] using hp
  · rintro s rfl hs
    simpa [jsOr, truthy, toStr, hs] using hb
  · rintro s rfl hs
    simpa [jsOr, truthy, toStr, hs] using hp
  · rintro s rfl hs
    obtain ⟨pre, post, h⟩ := emailContent_around_budget (some email) (some clientName)
      (some projectTitle) (some description) phoneNumber
    refine ⟨pre, post, ?_, ?_⟩
    · simpa [jsOr, truthy, toStr, hs] using h (some s)
    · simpa [jsOr, truthy, toStr] using h none
  · rintro s rfl hs
    obtain ⟨pre, post, h⟩ := emailContent_around_phoneNumber (some email) (some clientName)
      (some projectTitle) (some description) timeline
    refine ⟨pre, post, ?_, ?_⟩
    · simpa [jsOr, truthy, toStr, hs] using h (some s)
    · simpa [jsOr, truthy, toStr] using h none
  · rintro s rfl hs hdef hlt hfree
    have hph : '💰' ∉ (toStr (jsOr phoneNumber "Not provided")).toList := by
      cases phoneNumber with
      | none => simp only [jsOr, truthy, toStr]; decide
      | some p =>
          by_cases hpe : p = ""
          · subst hpe
            simp only [jsOr, truthy, toStr]; decide
          · have := hfree p (by simp)
            simpa [jsOr, truthy, toStr, hpe] using this
    apply not_contains_default_budget
    · simpa [jsOr, truthy, toStr, hs] using hdef
    · simpa [jsOr, truthy, toStr, hs] using hlt
    · refine ⟨hfree clientName (by simp), hfree email (by simp), hph,
        hfree projectTitle (by simp), ?_, hfree description (by simp)⟩
      simpa [jsOr, truthy, toStr, hs] using hfree s (by simp)
  · rintro s rfl hs hdef hlt hfree
    have hti : '📱' ∉ (toStr (jsOr timeline "Not specified")).toList := by
      cases timeline with
      | none => simp only [jsOr, truthy, toStr]; decide
      | some t =>
          by_cases hte : t = ""
          · subst hte
            simp only [jsOr, truthy, toStr]; decide
          · have := hfree t (by simp)
            simpa [jsOr, truthy, toStr, hte] using this
    apply not_contains_default_phoneNumber
    · simpa [jsOr, truthy, toStr, hs] using hdef
    · simpa [jsOr, truthy, toStr, hs] using hlt
    · refine ⟨hfree clientName (by simp), hfree email (by simp), ?_,
        hfree projectTitle (by simp), hti, hfree description (by simp)⟩
      simpa [jsOr, truthy, toStr, hs] using hfree s (by simp)

set_option maxRecDepth 100000 in
/-- Witness of C8: the example submission without optional fields shows both
default texts; with both fields supplied it shows the supplied strings and
neither default element. -/
theorem optional_fields_rendered_witness :
    (∀ m ∈ sentMails (sendContact (some "inbox@example.com") exampleBody (scripted [])).trace,
        Contains m.html (budgetBox "Not specified") ∧
          Contains m.html (phoneNumberBox "Not provided")) ∧
      (∀ m ∈ sentMails (sendContact (some "inbox@example.com")
          ⟨some "a@b.com", some "Ana", some "Website", some "Need a site", some "50000",
            some "+91 98765 43210"⟩ (scripted [])).trace,
        Contains m.html (budgetBox "50000") ∧
          Contains m.html (phoneNumberBox "+91 98765 43210") ∧
          ¬ Contains m.html (budgetBox "Not specified") ∧
          ¬ Contains m.html (phoneNumberBox "Not provided")) :=
  ⟨fun m hm =>
      have h := (optional_fields_rendered (some "inbox@example.com") "a@b.com" "Ana" "Website"
        "Need a site" none none (scripted []) (by decide)).2 m hm
      ⟨h.1 rfl, h.2.1 rfl⟩,
   fun m hm =>
      have h := (optional_fields_rendered (some "inbox@example.com") "a@b.com" "Ana" "Website"
        "Need a site" (some "50000") (some "+91 98765 43210") (scripted []) (by decide)).2 m hm
      ⟨h.2.2.1 _ rfl (by decide), h.2.2.2.1 _ rfl (by decide),
        h.2.2.2.2.2.2.1 _ rfl (by decide) (by decide) (by decide) (by unfold FreeOf; decide),
        h.2.2.2.2.2.2.2 _ rfl (by decide) (by decide) (by decide) (by unfold FreeOf; decide)⟩⟩

/-! ## Validation precedes delivery -/

/-- C9: a submission that fails validation (a required field absent or empty, or
an email the pattern rejects) causes no `sendMail` call and no other effect; and
every mail handed to the provider is `mailOptions` of a submission whose four
required fields are non-empty and whose email passes the pattern. -/
theorem no_send_without_valid_submission (EMAIL_USER : Option String) (body : RequestBody)
    (provider : Nat → Outcome) :
    ((AbsentOrEmpty body.email ∨ AbsentOrEmpty body.clientName ∨
        AbsentOrEmpty body.projectTitle ∨ AbsentOrEmpty body.description ∨
        emailRegexTest (toStr body.email) = false) →
      (sendContact EMAIL_USER body provider).trace = []) ∧
    ∀ m ∈ sentMails (sendContact EMAIL_USER body provider).trace,
      (¬ AbsentOrEmpty body.email ∧ ¬ AbsentOrEmpty body.clientName ∧
        ¬ AbsentOrEmpty body.projectTitle ∧ ¬ AbsentOrEmpty body.description ∧
        emailRegexTest (toStr body.email) = true) ∧
      m = mailOptions EMAIL_USER body := by
  simp only [← truthy_eq_false_iff, Bool.not_eq_false]
  have key : validSubmission body = false → (sendContact EMAIL_USER body provider).trace = [] := by
    intro h
    by_cases hreq : truthy body.email = true ∧ truthy body.clientName = true ∧
        truthy body.projectTitle = true ∧ truthy body.description = true
    · have he : emailRegexTest (toStr body.email) = false := by
        cases hte : emailRegexTest (toStr body.email) with
        | false => rfl
        | true =>
            rw [(validSubmission_iff body).mpr ⟨hreq, hte⟩] at h
            exact absurd h (by decide)
      rw [sendContact_badEmail EMAIL_USER body provider hreq he]
    · rw [sendContact_missing EMAIL_USER body provider]
      by_contra hcon
      simp only [not_or, Bool.not_eq_false] at hcon
      exact hreq ⟨hcon.1, hcon.2.1, hcon.2.2.1, hcon.2.2.2⟩
  constructor
  · intro h
    apply key
    cases hv : validSubmission body with
    | false => rfl
    | true =>
        obtain ⟨⟨h1, h2, h3, h4⟩, h5⟩ := (validSubmission_iff body).mp hv
        simp [h1, h2, h3, h4, h5] at h
  · intro m hm
    cases hv : validSubmission body with
    | false =>
        rw [key hv] at hm
        simp [sentMails] at hm
    | true =>
        obtain ⟨⟨h1, h2, h3, h4⟩, h5⟩ := (validSubmission_iff body).mp hv
        exact ⟨⟨h1, h2, h3, h4, h5⟩, (sentMails_valid EMAIL_USER body provider hv).2 m hm⟩

/-- Witness of C9: a malformed email causes no effect, even with a provider that
would resolve. -/
theorem no_send_without_valid_submission_witness :
    (sendContact (some "inbox@example.com")
      ⟨some "ana@example", some "Ana", some "Website", some "Need a site", none, none⟩
      (scripted [])).trace = [] :=
  (no_send_without_valid_submission _ _ _).1 (Or.inr (Or.inr (Or.inr (Or.inr (by decide)))))

/-! ## Waiting between attempts -/

/-- C10: for a valid submission, the trace of effects is the `sendMail` calls
separated by one wait of 1000 ms each, with no wait before the first call or
after the last one: when `f ≤ 2` calls are rejected and the next one resolves
there are `f + 1` calls and `f` waits, and when the first three calls are
rejected there are three calls and two waits. -/
theorem waits_between_attempts (EMAIL_USER : Option String) (body : RequestBody)
    (provider : Nat → Outcome) (hv : validSubmission body = true) :
    (∀ f, f ≤ 2 → (∀ j, j < f → provider j ≠ .resolved) → provider f = .resolved →
        (sendContact EMAIL_USER body provider).trace =
            List.intersperse (.wait 1000)
              (List.replicate (f + 1) (.sendMail (mailOptions EMAIL_USER body))) ∧
          waits (sendContact EMAIL_USER body provider).trace = List.replicate f 1000) ∧
      ((∀ j, j < 3 → provider j ≠ .resolved) →
        (sendContact EMAIL_USER body provider).trace =
            List.intersperse (.wait 1000)
              (List.replicate 3 (.sendMail (mailOptions EMAIL_USER body))) ∧
          waits (sendContact EMAIL_USER body provider).trace = [1000, 1000]) := by
  rw [sendContact_valid EMAIL_USER body provider hv, retryLoop_three]
  constructor
  · intro f hf hfail hok
    have hcases : f = 0 ∨ f = 1 ∨ f = 2 := by omega
    rcases hcases with rfl | rfl | rfl
    · simp [hok, waits, List.replicate, List.intersperse]
    · cases hp0 : provider 0 with
      | resolved => exact absurd hp0 (hfail 0 (by omega))
      | rejected e0 => simp [hok, waits, List.replicate, List.intersperse]
    · cases hp0 : provider 0 with
      | resolved => exact absurd hp0 (hfail 0 (by omega))
      | rejected e0 =>
          cases hp1 : provider 1 with
          | resolved => exact absurd hp1 (hfail 1 (by omega))
          | rejected e1 => simp [hok, waits, List.replicate, List.intersperse]
  · intro hfail
    cases hp0 : provider 0 with
    | resolved => exact absurd hp0 (hfail 0 (by omega))
    | rejected e0 =>
        cases hp1 : provider 1 with
        | resolved => exact absurd hp1 (hfail 1 (by omega))
        | rejected e1 =>
            cases hp2 : provider 2 with
            | resolved => exact absurd hp2 (hfail 2 (by omega))
            | rejected e2 => simp [waits, List.replicate, List.intersperse]

/-- Witness of C10: one rejection then success gives one wait; three rejections
give two waits. -/
theorem waits_between_attempts_witness :
    waits (sendContact (some "inbox@example.com") exampleBody
        (scripted [.rejected ⟨"one"⟩])).trace = [1000] ∧
      waits (sendContact (some "inbox@example.com") exampleBody
        (scripted [.rejected ⟨"one"⟩, .rejected ⟨"two"⟩, .rejected ⟨"three"⟩])).trace =
        [1000, 1000] :=
  ⟨((waits_between_attempts _ _ (scripted [.rejected ⟨"one"⟩]) (by decide)).1 1 (by decide)
      (by intro j hj
          have : j = 0 := by omega
          subst this
          simp [scripted])
      (by simp [scripted])).2,
   ((waits_between_attempts _ _
      (scripted [.rejected ⟨"one"⟩, .rejected ⟨"two"⟩, .rejected ⟨"three"⟩]) (by decide)).2
      (by intro j hj
          have : j = 0 ∨ j = 1 ∨ j = 2 := by omega
          rcases this with rfl | rfl | rfl <;> simp [scripted])).2⟩

end ContactRelay
